import Mathlib

/-!
# Crossbench execution engine: a shallow embedding

This file embeds the core data model and operations of the crossbench
benchmark runner (the `Runner` / `Run` scheduler, the `RunGroup` merge
cascade, `ProbeResult` validation, flag handling and the host-environment
configuration) as executable Lean definitions, and proves the specified
properties about them.

Python paths (`pathlib.Path`) are modelled as strings with `/`-separated
components; `pathlib`'s `Path.suffix` ("the file extension of the final
component") is reproduced exactly, including its treatment of dot-files
and trailing dots.  The filesystem is modelled as a boolean predicate on
paths (`disk : String → Bool`), and Python exceptions as `Except` /
`Option` results.
-/

/-- The final component of a `/`-separated path, as `pathlib.PurePath.name`. -/
def pathNameChars (p : String) : List Char :=
  (p.toList.reverse.takeWhile (fun c => c ≠ '/')).reverse

/-- Extension of a file name, as CPython's `pathlib`: the part of the final
component from its last dot, provided that dot is neither the first nor the
last character (`"a.json"` ↦ `".json"`, `".json"` ↦ `""`, `"a."` ↦ `""`). -/
def suffixOfChars (name : List Char) : List Char :=
  let rev := name.reverse
  let pre := rev.takeWhile (fun c => c ≠ '.')
  if pre.length = rev.length then []
  else if pre.length = 0 then []
  else if pre.length + 1 = rev.length then []
  else '.' :: pre.reverse

/-- `pathlib.Path(p).suffix`. -/
def pathSuffix (p : String) : String := String.mk (suffixOfChars (pathNameChars p))

/-- `Except.isOk` as a plain boolean helper. -/
def exceptIsOk {ε α : Type} : Except ε α → Bool
  | .ok _ => true
  | .error _ => false

/-- `crossbench.probes.results.ProbeResult`: four lists of produced
artifacts (URLs, generic files, JSON files, CSV files). -/
structure ProbeResult where
  url_list : List String
  file_list : List String
  json_list : List String
  csv_list : List String
deriving DecidableEq

/-- `ProbeResult.all_files`: generic files, then JSON files, then CSV files. -/
def ProbeResult.all_files (r : ProbeResult) : List String :=
  r.file_list ++ r.json_list ++ r.csv_list

/-- `ProbeResult.is_empty`: `not any((url, file, json, csv))`. -/
def ProbeResult.is_empty (r : ProbeResult) : Bool :=
  r.url_list.isEmpty && r.file_list.isEmpty && r.json_list.isEmpty && r.csv_list.isEmpty

/-- `ProbeResult._validate`, with the filesystem as the predicate `disk`:
generic files must not have a `.csv`/`.json` suffix, the typed lists must
have exactly their suffix, and every file in `all_files()` must exist. -/
def probeResultValidate (disk : String → Bool) (r : ProbeResult) : Except String Unit :=
  if !(r.file_list.all fun p => pathSuffix p != ".csv" && pathSuffix p != ".json") then
    .error "Use specific parameter for result"
  else if !(r.json_list.all fun p => pathSuffix p == ".json") then
    .error "Expected .json file"
  else if !(r.csv_list.all fun p => pathSuffix p == ".csv") then
    .error "Expected .csv file"
  else if !(r.all_files.all disk) then
    .error "ProbeResult file does not exist"
  else
    .ok ()

/-- `ProbeResult.__init__`: store the four tuples and run `_validate`. -/
def mkProbeResult (disk : String → Bool) (url file json csv : List String) :
    Except String ProbeResult :=
  let r : ProbeResult := ⟨url, file, json, csv⟩
  (probeResultValidate disk r).map fun _ => r

/-- `ProbeResult.merge`: construct a new `ProbeResult` from the
concatenation of the corresponding lists (re-running validation). -/
def ProbeResult.merge (disk : String → Bool) (r other : ProbeResult) :
    Except String ProbeResult :=
  mkProbeResult disk (r.url_list ++ other.url_list) (r.file_list ++ other.file_list)
    (r.json_list ++ other.json_list) (r.csv_list ++ other.csv_list)

/-- Concrete filesystem for evaluating `ProbeResult` construction: exactly
three files exist. -/
def c6disk : String → Bool := fun p => p == "a.json" || p == "b.csv" || p == "c.txt"

/-- A concrete valid `ProbeResult` (one URL, one generic file). -/
def c6r : ProbeResult := ⟨["http://res"], ["c.txt"], [], []⟩

/-- A concrete valid `ProbeResult` (one JSON file, one CSV file). -/
def c6other : ProbeResult := ⟨[], [], ["a.json"], ["b.csv"]⟩

/-- Modelled from the spec: `crossbench/env.py` is absent from the sources
(only `tests/test_env.py` is present).  `HostEnvironmentConfig` is a sparse
record; unset fields are `none`. -/
structure HostEnvironmentConfig where
  power_use_battery : Option Bool
  cpu_min_relative_speed : Option ℚ
  cpu_max_usage_percent : Option ℚ
  disk_min_free_bytes : Option ℚ
deriving DecidableEq

/-- Modelled from the spec: merging a boolean setting fails (None) on
disagreeing set values; an unset side takes the other side's value. -/
def mergeBoolField : Option Bool → Option Bool → Option (Option Bool)
  | some a, some b => if a = b then some (some a) else none
  | some a, none => some (some a)
  | none, b => some b

/-- Modelled from the spec: the stricter of two lower bounds is the maximum. -/
def mergeMinBound : Option ℚ → Option ℚ → Option ℚ
  | some a, some b => some (max a b)
  | some a, none => some a
  | none, b => b

/-- Modelled from the spec: the stricter of two upper bounds is the minimum. -/
def mergeMaxBound : Option ℚ → Option ℚ → Option ℚ
  | some a, some b => some (min a b)
  | some a, none => some a
  | none, b => b

/-- Modelled from the spec: `HostEnvironmentConfig.merge` fails on bool
conflicts and keeps the stricter numeric bound per field. -/
def HostEnvironmentConfig.merge (a b : HostEnvironmentConfig) :
    Option HostEnvironmentConfig :=
  match mergeBoolField a.power_use_battery b.power_use_battery with
  | none => none
  | some pub =>
    some ⟨pub,
      mergeMinBound a.cpu_min_relative_speed b.cpu_min_relative_speed,
      mergeMaxBound a.cpu_max_usage_percent b.cpu_max_usage_percent,
      mergeMinBound a.disk_min_free_bytes b.disk_min_free_bytes⟩

def c7a : HostEnvironmentConfig := ⟨some false, some 1, some 100, none⟩

def c7b : HostEnvironmentConfig := ⟨none, some (1/2), some 0, some 5⟩

def c7conflict : HostEnvironmentConfig := ⟨some true, none, none, none⟩

/-- Modelled from the spec: `crossbench/flags.py` is absent from the sources
(only `test_flags.py` is present).  `Flags` is an ordered, deduplicated
mapping from flag name to optional value. -/
abbrev Flags := List (String × Option String)

/-- Lookup of a flag by name (first matching entry). -/
def flagsLookup (fs : Flags) (name : String) : Option (Option String) :=
  (fs.find? fun kv => kv.1 == name).map Prod.snd

/-- Modelled from the spec: `Flags.set` has set-once semantics — setting a
present flag to its current value is a no-op, to a different value fails
(`none`) unless `override` is requested, in which case the value is
replaced; an absent flag is appended. -/
def flagsSet (fs : Flags) (name : String) (value : Option String) (override : Bool) :
    Option Flags :=
  match flagsLookup fs name with
  | some old =>
    if old = value then some fs
    else if override then
      some (fs.map fun kv => if kv.1 == name then (name, value) else kv)
    else none
  | none => some (fs ++ [(name, value)])

def c8flags : Flags := [("--foo", some "v1"), ("--bar", none)]

/-- A browser variant; its identity for directory layout is `unique_name`,
asserted distinct across the Runner's browsers (`Runner._validate_browsers`). -/
structure Browser where
  unique_name : String
deriving DecidableEq

/-- A story; its identity for directory layout is `name`. -/
structure Story where
  name : String
deriving DecidableEq

/-- `crossbench.runner.Run` identity: one (browser, story, repetition)
triple plus its sequential `index`. -/
structure Run where
  browser : Browser
  story : Story
  repetition : Nat
  index : Nat
deriving DecidableEq

/-- The loop nest of `Runner.get_runs`: `for repetition in range(R): for
story in stories: for browser in browsers`. -/
def cartesianTriples (browsers : List Browser) (stories : List Story) (repetitions : Nat) :
    List (Browser × Story × Nat) :=
  (List.range repetitions).flatMap fun rep =>
    stories.flatMap fun story =>
      browsers.map fun browser => (browser, story, rep)

/-- `Runner.get_runs`: yield one `Run` per cartesian triple, assigning the
sequential counter `index` (0-based, incremented per yield). -/
def Runner.get_runs (browsers : List Browser) (stories : List Story) (repetitions : Nat) :
    List Run :=
  (cartesianTriples browsers stories repetitions).enum.map fun p =>
    { browser := p.2.1, story := p.2.2.1, repetition := p.2.2.2, index := p.1 }

/-- The run output directory `root_dir / browser.unique_name / story.name /
str(repetition)`: the three path segments below the fixed root.  `str` is
injective on naturals, so the last segment is modelled by the repetition
number itself. -/
structure OutDir where
  browserSeg : String
  storySeg : String
  repetitionSeg : Nat
deriving DecidableEq

/-- `Run.get_out_dir`. -/
def Run.get_out_dir (r : Run) : OutDir :=
  ⟨r.browser.unique_name, r.story.name, r.repetition⟩

/-- The identity a `Run` contributes to its out_dir. -/
def runKey (r : Run) : String × String × Nat :=
  (r.browser.unique_name, r.story.name, r.repetition)

/-- `runKey` on a raw cartesian triple. -/
def keyT (t : Browser × Story × Nat) : String × String × Nat :=
  (t.1.unique_name, t.2.1.name, t.2.2)

/-- Two concrete browsers with distinct unique names. -/
def c1browsers : List Browser := [⟨"chrome"⟩, ⟨"firefox"⟩]

/-- Two concrete stories with distinct names. -/
def c1stories : List Story := [⟨"speedometer"⟩, ⟨"jetstream"⟩]

/-- A probe, identified by its `NAME` (unique within a Runner). -/
structure Probe where
  name : String
deriving DecidableEq

/-- The three aggregation levels of the merge cascade. -/
inductive MergeLevel
  | repetitions
  | stories
  | browsers
deriving DecidableEq

/-- One call of a `merge_*` hook: which level, which group of that level
(by position), and which probe. -/
structure MergeEvent where
  level : MergeLevel
  group : Nat
  probe : String
deriving DecidableEq

/-- Innermost-to-outermost rank of a merge level. -/
def levelRank : MergeLevel → Nat
  | .repetitions => 0
  | .stories => 1
  | .browsers => 2

/-- `RunGroup.merge`: iterate `reversed(runner.probes)`, call the level's
merge hook for each probe, and store every non-None result into the
group's `ProbeResultDict`; returns the trace of hook calls and the stored
entries. -/
def RunGroup.merge (level : MergeLevel) (group : Nat) (probes : List Probe)
    (hook : MergeLevel → Nat → Probe → Option ProbeResult) :
    List MergeEvent × List (String × ProbeResult) :=
  probes.reverse.foldl
    (fun acc probe =>
      match hook level group probe with
      | none => (acc.1 ++ [⟨level, group, probe.name⟩], acc.2)
      | some res =>
        (acc.1 ++ [⟨level, group, probe.name⟩], acc.2 ++ [(probe.name, res)]))
    ([], [])

/-- `Runner._tear_down`: merge all `RepetitionsRunGroup`s, then all
`StoriesRunGroup`s, then the single `BrowsersRunGroup` (groups numbered by
position within their level). -/
def Runner.tearDownMerge (probes : List Probe) (repGroupCount storyGroupCount : Nat)
    (hook : MergeLevel → Nat → Probe → Option ProbeResult) : List MergeEvent :=
  ((List.range repGroupCount).flatMap fun g =>
    (RunGroup.merge .repetitions g probes hook).1) ++
  ((List.range storyGroupCount).flatMap fun g =>
    (RunGroup.merge .stories g probes hook).1) ++
  (RunGroup.merge .browsers 0 probes hook).1

/-- `Runner._attach_default_probes`: the results-summary probe
(`NAME = "results"`) is attached first, then the durations probe, the
runner-log probe, and finally any user probes. -/
def attachDefaultProbes (additional : List Probe) : List Probe :=
  ⟨"results"⟩ :: ⟨"cb.runner.durations"⟩ :: ⟨"cb.runner.log"⟩ :: additional

/-- Observable actions of `Run.run` / `Run.tear_down`, in program order. -/
inductive RunEvent
  | mkOutDir
  | scopeCreate (probe : String)
  | seedEmptyResult (probe : String)
  | scopeSetup (probe : String)
  | browserSetup
  | browserForceQuit
  | scopeStart (probe : String)
  | storyRun
  | scopeStop (probe : String)
  | browserQuit
  | warnQuitError
  | warnBrowserDead
  | scopeTearDown (probe : String)
  | warnEmptyResult (probe : String)
  | rmBrowserTmpDir
deriving DecidableEq

/-- Behaviour of one `ProbeScope` within a Run: its probe name, whether the
probe `PRODUCES_DATA`, and whether each lifecycle hook raises / returns an
empty result. -/
structure ScopeSpec where
  sname : String
  producesData : Bool
  setupRaises : Bool
  tearDownRaises : Bool
  tearDownEmpty : Bool
deriving DecidableEq

/-- Behaviour of the browser and story within a Run. -/
structure RunBehavior where
  browserSetupRaises : Bool
  storyRaises : Bool
  quitRaises : Bool
deriving DecidableEq

/-- Mutable state of a `Run`: its lifecycle state
(INITIAL=0, PREPARE=1, RUN=2, DONE=3), the trace of performed actions, the
Run annotator's captured errors, the `ProbeResultDict` entries
(probe name ↦ result-is-empty), and the browser/tmp-dir flags. -/
structure RunState where
  state : Nat
  events : List RunEvent
  errors : List String
  resultEntries : List (String × Bool)
  browserRunning : Bool
  tmpDirCreated : Bool
  tmpDirRemoved : Bool
deriving DecidableEq

/-- A freshly constructed Run (`STATE_INITIAL`, everything empty). -/
def initialRunState : RunState :=
  { state := 0, events := [], errors := [], resultEntries := [],
    browserRunning := false, tmpDirCreated := false, tmpDirRemoved := false }

/-- `pathlib.Path.mkdir` on the modelled filesystem `fs` (the list of
existing directories): raises `FileExistsError` iff the directory exists
and `exist_ok` is false. -/
def Path.mkdir (fs : List String) (p : String) (parents exist_ok : Bool) :
    Except String (List String) :=
  if p ∈ fs then
    if exist_ok then .ok fs else .error "FileExistsError"
  else .ok (p :: fs)

/-- Events of the probes-creation loop of `Run.setup`: one scope per probe,
seeding an empty result for each `PRODUCES_DATA` probe. -/
def creationBlock (scopes : List ScopeSpec) : List RunEvent :=
  scopes.flatMap fun s =>
    RunEvent.scopeCreate s.sname ::
      (if s.producesData then [RunEvent.seedEmptyResult s.sname] else [])

/-- `ProbeResultDict` entries seeded during probes-creation (empty results
for `PRODUCES_DATA` probes). -/
def seedBlock (scopes : List ScopeSpec) : List (String × Bool) :=
  (scopes.filter fun s => s.producesData).map fun s => (s.sname, true)

/-- `scope.setup(run)` calls in attach order. -/
def setupBlock (scopes : List ScopeSpec) : List RunEvent :=
  scopes.map fun s => RunEvent.scopeSetup s.sname

/-- `scope.start` calls (scope entry) in attach order. -/
def startBlock (scopes : List ScopeSpec) : List RunEvent :=
  scopes.map fun s => RunEvent.scopeStart s.sname

/-- `scope.stop` calls (scope exit). -/
def stopBlock (scopes : List ScopeSpec) : List RunEvent :=
  scopes.map fun s => RunEvent.scopeStop s.sname

/-- Events of `Run._tear_down_probe_scopes` over an (already reversed)
scope list: each teardown is wrapped in `capture` (a raising teardown is
recorded and swallowed); an empty result logs a warning and is still
stored. -/
def tdScopeBlock (l : List ScopeSpec) : List RunEvent :=
  l.flatMap fun s =>
    if s.tearDownRaises then [RunEvent.scopeTearDown s.sname]
    else RunEvent.scopeTearDown s.sname ::
      (if s.tearDownEmpty then [RunEvent.warnEmptyResult s.sname] else [])

/-- The probes-creation step of `Run.setup`. -/
def creationPhase (scopes : List ScopeSpec) (st : RunState) : RunState :=
  { st with
      events := st.events ++ creationBlock scopes
      resultEntries := st.resultEntries ++ seedBlock scopes }

/-- The probes-setup loop of `Run.setup`: each `scope.setup(run)` runs
under `exception_info` (a non-capturing annotation scope), so the first
raising setup propagates and aborts the loop. -/
def setupScopesPhase : List ScopeSpec → RunState → RunState × Option String
  | [], st => (st, none)
  | s :: rest, st =>
    let st := { st with events := st.events ++ [RunEvent.scopeSetup s.sname] }
    if s.setupRaises then (st, some ("Probe " ++ s.sname ++ " setup raised"))
    else setupScopesPhase rest st

/-- `Run.setup`: advance INITIAL→PREPARE, assert `browser.log` does not
preexist, create one scope per probe (duplicate check, seeding), run every
scope's `setup` (errors NOT captured), then `browser.setup` (on failure
`browser.force_quit()` then re-raise). -/
def Run.setup (beh : RunBehavior) (scopes : List ScopeSpec)
    (browserLogExists : Bool) (st : RunState) : RunState × Option String :=
  if st.state ≠ 0 then (st, some "Invalid state") else
  let st1 := { st with state := 1 }
  if browserLogExists then (st1, some "browser.log exists") else
  if ¬ (scopes.map ScopeSpec.sname).Nodup then (st1, some "duplicate probe") else
  let st2 := creationPhase scopes st1
  match setupScopesPhase scopes st2 with
  | (st3, some e) => (st3, some e)
  | (st3, none) =>
    if beh.browserSetupRaises then
      ({ st3 with events := st3.events ++ [RunEvent.browserSetup, RunEvent.browserForceQuit] },
        some "browser setup raised")
    else
      ({ st3 with
          events := st3.events ++ [RunEvent.browserSetup]
          browserRunning := true },
        none)

/-- `Run._run`: enter all probe scopes (start), run the story inside the
combined scope, exit the scopes (stop); a story exception is reported to
the caller after the scopes have exited. -/
def runPhase (beh : RunBehavior) (scopes : List ScopeSpec) (st : RunState) :
    RunState × Option String :=
  let st1 := { st with events := st.events ++ startBlock scopes }
  let st2 := { st1 with events := st1.events ++ [RunEvent.storyRun] }
  let st3 := { st2 with events := st2.events ++ stopBlock scopes.reverse }
  (st3, if beh.storyRaises then some "story raised" else none)

/-- The `with self._exceptions.capture("Quit browser")` quit call of
`Run.tear_down`: a raising quit is captured into the Run annotator. -/
def quitCapturePhase (beh : RunBehavior) (st : RunState) : RunState :=
  if beh.quitRaises then
    { st with
        events := st.events ++ [RunEvent.browserQuit]
        errors := st.errors ++ ["Quit browser"] }
  else
    { st with
        events := st.events ++ [RunEvent.browserQuit]
        browserRunning := false }

/-- `Run._tear_down_probe_scopes`: iterate the scopes in reverse of their
setup order. -/
def tearDownScopesPhase (scopes : List ScopeSpec) (st : RunState) : RunState :=
  { st with
      events := st.events ++ tdScopeBlock scopes.reverse
      errors := st.errors ++ ((scopes.reverse.filter fun s => s.tearDownRaises).map
        fun s => "Probe " ++ s.sname ++ " teardown")
      resultEntries := st.resultEntries ++
        ((scopes.reverse.filter fun s => !s.tearDownRaises).map
          fun s => (s.sname, s.tearDownEmpty)) }

/-- `Run._rm_browser_tmp_dir`: remove the browser-side tmp dir only if it
was created. -/
def rmTmpDirPhase (st : RunState) : RunState :=
  if st.tmpDirCreated then
    { st with
        events := st.events ++ [RunEvent.rmBrowserTmpDir]
        tmpDirRemoved := true }
  else st

/-- `Run.tear_down`: advance RUN→DONE first; warn if the browser is dead;
on `is_shutdown` a raising `browser.quit` logs a warning and RETURNS
immediately (no probe teardown, no tmp-dir removal); otherwise quit is
captured, the scopes are torn down in reverse order and the tmp dir
removed. -/
def Run.tear_down (beh : RunBehavior) (scopes : List ScopeSpec) (is_shutdown : Bool)
    (st : RunState) : RunState × Option String :=
  if st.state ≠ 2 then (st, some "Invalid state") else
  let st1 := { st with state := 3 }
  if st1.browserRunning = false then
    let st2 := { st1 with events := st1.events ++ [RunEvent.warnBrowserDead] }
    (rmTmpDirPhase (tearDownScopesPhase scopes st2), none)
  else if is_shutdown then
    if beh.quitRaises then
      ({ st1 with events := st1.events ++ [RunEvent.browserQuit, RunEvent.warnQuitError] },
        none)
    else
      let st2 := { st1 with
        events := st1.events ++ [RunEvent.browserQuit], browserRunning := false }
      let st3 := quitCapturePhase beh st2
      (rmTmpDirPhase (tearDownScopesPhase scopes st3), none)
  else
    let st2 := quitCapturePhase beh st1
    (rmTmpDirPhase (tearDownScopesPhase scopes st2), none)

/-- `Run.run`: `out_dir.mkdir(parents=True, exist_ok=True)`, then `setup`
(whose exception would propagate — it is outside the try/finally), then
PREPARE→RUN, `_run` with story errors appended to the annotator, and
`tear_down` in the `finally`. -/
def Run.run (beh : RunBehavior) (scopes : List ScopeSpec) (fs : List String)
    (out_dir : String) (browserLogExists : Bool) (st : RunState) :
    RunState × Option String :=
  match Path.mkdir fs out_dir true true with
  | .error e => (st, some e)
  | .ok _ =>
    let st0 := { st with events := st.events ++ [RunEvent.mkOutDir] }
    match Run.setup beh scopes browserLogExists st0 with
    | (st1, some e) => (st1, some e)
    | (st1, none) =>
      if st1.state ≠ 1 then (st1, some "Invalid state") else
      let st2 := { st1 with state := 2 }
      match runPhase beh scopes st2 with
      | (st3, storyErr) =>
        let st4 := match storyErr with
          | some e => { st3 with errors := st3.errors ++ [e] }
          | none => st3
        Run.tear_down beh scopes false st4

/-- Probe names of the `scope.tear_down` calls in a trace, in order. -/
def tearDownNames (evs : List RunEvent) : List String :=
  evs.filterMap fun e => match e with
    | RunEvent.scopeTearDown n => some n
    | _ => none

/-- Probe names of the `scope.setup` calls in a trace, in order. -/
def setupNames (evs : List RunEvent) : List String :=
  evs.filterMap fun e => match e with
    | RunEvent.scopeSetup n => some n
    | _ => none

/-- Probe names of the empty-result warnings in a trace, in order. -/
def warnEmptyNames (evs : List RunEvent) : List String :=
  evs.filterMap fun e => match e with
    | RunEvent.warnEmptyResult n => some n
    | _ => none

/-- A fully benign behaviour: nothing raises. -/
def c3beh : RunBehavior := ⟨false, false, false⟩

/-- A well-behaved data-producing scope. -/
def c3goodA : ScopeSpec := ⟨"results", true, false, false, false⟩

/-- A well-behaved scope whose teardown returns an empty result. -/
def c3goodB : ScopeSpec := ⟨"cb.runner.log", false, false, false, true⟩

/-- A scope whose `setup(run)` raises. -/
def c3bad : ScopeSpec := ⟨"crashy", true, true, false, false⟩

/-- A Run in the RUN state with a live browser, one stored result and a
created browser tmp dir. -/
def c10state : RunState :=
  { state := 2, events := [], errors := [], resultEntries := [("results", false)],
    browserRunning := true, tmpDirCreated := true, tmpDirRemoved := false }

/-- Modelled from the spec: `crossbench/exception.py` is absent from the
sources.  An `exception.Annotator` holds the list of captured errors (the
context stacks are irrelevant here). -/
structure Annotator where
  errors : List String
deriving DecidableEq

/-- Modelled from the spec: success iff no error was captured. -/
def Annotator.is_success (a : Annotator) : Bool := a.errors.isEmpty

/-- Modelled from the spec: `Annotator.extend` appends another annotator's
captured errors. -/
def Annotator.extend (a b : Annotator) : Annotator := ⟨a.errors ++ b.errors⟩

/-- Modelled from the spec: `assert_success(msg, RunnerException)` collapses
the accumulated errors into one composite exception iff any exist. -/
def Annotator.assert_success (a : Annotator) : Except String Unit :=
  if a.errors.isEmpty then .ok () else .error "RunnerException"

/-- A completed Run, reduced to the contents of its error annotator. -/
structure RunOutcome where
  errors : List String
deriving DecidableEq

/-- `Run.is_success`: the Run's annotator captured nothing. -/
def runIsSuccess (r : RunOutcome) : Bool := r.errors.isEmpty

/-- `RunThreadGroup.run`: after each run, a failed run's exceptions are
extended into the Runner's top-level annotator. -/
def collectRunExceptions (runs : List RunOutcome) (a : Annotator) : Annotator :=
  runs.foldl (fun acc r => if runIsSuccess r then acc else acc.extend ⟨r.errors⟩) a

/-- The final report step of `Runner.run`: `assert_success(..., RunnerException)`
on the top-level annotator after all thread groups joined. -/
def Runner.finalReport (runs : List RunOutcome) (a : Annotator) : Except String Unit :=
  (collectRunExceptions runs a).assert_success

/-- `Runner.is_success`: `len(self._runs) > 0 and self._exceptions.is_success`. -/
def Runner.is_success (runs : List RunOutcome) (a : Annotator) : Bool :=
  decide (0 < runs.length) && a.is_success

/-- The Runner state `attach_probe` mutates: the probe list and the
(browser, probe) attachments performed so far. -/
structure AttachState where
  probes : List String
  attachments : List (String × String)
deriving DecidableEq

/-- The browser loop of `Runner.attach_probe`: a compatible browser gets
`browser.attach_probe(probe)`; an incompatible one is skipped with a
warning under `matching_browser_only`, otherwise the loop raises. -/
def attachLoop (compatible : String → String → Bool) (probe : String)
    (matching_browser_only : Bool) :
    List String → AttachState → AttachState × Option String
  | [], st => (st, none)
  | b :: rest, st =>
    if compatible b probe then
      attachLoop compatible probe matching_browser_only rest
        { st with attachments := st.attachments ++ [(b, probe)] }
    else if matching_browser_only then
      attachLoop compatible probe matching_browser_only rest st
    else
      (st, some ("Probe " ++ probe ++ " is not compatible"))

/-- `Runner.attach_probe`: assert the probe is new, append it to
`self._probes` BEFORE the browser loop, then loop over the browsers. -/
def Runner.attach_probe (compatible : String → String → Bool)
    (browsers : List String) (st : AttachState) (probe : String)
    (matching_browser_only : Bool) : AttachState × Option String :=
  if probe ∈ st.probes then (st, some "Cannot add the same probe twice") else
  attachLoop compatible probe matching_browser_only browsers
    { st with probes := st.probes ++ [probe] }

/-- A compatibility relation with exactly one incompatible pair. -/
def c9compat : String → String → Bool := fun b p =>
  !(b == "safari" && p == "v8.log")

/-! ## Theorems -/

theorem validate_isOk (disk : String → Bool) (r : ProbeResult) :
    exceptIsOk (probeResultValidate disk r) =
      ((r.file_list.all fun p => pathSuffix p != ".csv" && pathSuffix p != ".json") &&
       (r.json_list.all fun p => pathSuffix p == ".json") &&
       (r.csv_list.all fun p => pathSuffix p == ".csv") &&
       (r.all_files.all disk)) := by
  unfold probeResultValidate
  cases h1 : (r.file_list.all fun p => pathSuffix p != ".csv" && pathSuffix p != ".json") <;>
    cases h2 : (r.json_list.all fun p => pathSuffix p == ".json") <;>
      cases h3 : (r.csv_list.all fun p => pathSuffix p == ".csv") <;>
        cases h4 : (r.all_files.all disk) <;>
          simp [h1, h2, h3, h4, exceptIsOk]

/-- C6: `ProbeResult` construction succeeds iff every JSON-list path has
suffix `.json`, every CSV-list path has suffix `.csv`, no generic-file path
has suffix `.json`/`.csv`, and every listed file exists on disk;
`merge` returns the concatenation of the corresponding lists; and
`is_empty` holds iff all four lists are empty. -/
theorem C6_probe_result_invariants (disk : String → Bool)
    (url file json csv : List String) (r other : ProbeResult) :
    (exceptIsOk (mkProbeResult disk url file json csv) = true ↔
      ((∀ p ∈ file, pathSuffix p ≠ ".csv" ∧ pathSuffix p ≠ ".json") ∧
       (∀ p ∈ json, pathSuffix p = ".json") ∧
       (∀ p ∈ csv, pathSuffix p = ".csv") ∧
       (∀ p ∈ file ++ json ++ csv, disk p = true))) ∧
    (∀ m, ProbeResult.merge disk r other = .ok m →
       m.url_list = r.url_list ++ other.url_list ∧
       m.file_list = r.file_list ++ other.file_list ∧
       m.json_list = r.json_list ++ other.json_list ∧
       m.csv_list = r.csv_list ++ other.csv_list) ∧
    (r.is_empty = true ↔
      (r.url_list = [] ∧ r.file_list = [] ∧ r.json_list = [] ∧ r.csv_list = [])) := by
  refine ⟨?_, ?_, ?_⟩
  · have h := validate_isOk disk ⟨url, file, json, csv⟩
    unfold mkProbeResult
    cases hv : probeResultValidate disk ⟨url, file, json, csv⟩ with
    | ok u =>
      simp only [hv, Except.map, exceptIsOk] at h ⊢
      simp only [true_iff]
      rw [eq_comm] at h
      simp only [Bool.and_eq_true, List.all_eq_true, ProbeResult.all_files] at h
      obtain ⟨⟨⟨h1, h2⟩, h3⟩, h4⟩ := h
      refine ⟨fun p hp => ?_, fun p hp => ?_, fun p hp => ?_, fun p hp => h4 p hp⟩
      · have := h1 p hp
        simp only [Bool.and_eq_true, bne_iff_ne, ne_eq] at this
        exact this
      · simpa using h2 p hp
      · simpa using h3 p hp
    | error e =>
      simp only [hv, Except.map, exceptIsOk] at h ⊢
      constructor
      · intro hfalse; exact absurd hfalse (by decide)
      · intro hcon
        obtain ⟨h1, h2, h3, h4⟩ := hcon
        rw [eq_comm, Bool.eq_false_iff] at h
        refine absurd ?_ h
        simp only [Bool.and_eq_true, List.all_eq_true, ProbeResult.all_files]
        refine ⟨⟨⟨fun p hp => ?_, fun p hp => ?_⟩, fun p hp => ?_⟩, fun p hp => h4 p hp⟩
        · simp [bne_iff_ne, (h1 p hp).1, (h1 p hp).2]
        · simp [h2 p hp]
        · simp [h3 p hp]
  · intro m hm
    unfold ProbeResult.merge mkProbeResult at hm
    cases hv : probeResultValidate disk
        ⟨r.url_list ++ other.url_list, r.file_list ++ other.file_list,
         r.json_list ++ other.json_list, r.csv_list ++ other.csv_list⟩ with
    | ok u => simp only [hv, Except.map] at hm; cases hm; exact ⟨rfl, rfl, rfl, rfl⟩
    | error e => simp [hv, Except.map] at hm
  · simp [ProbeResult.is_empty, List.isEmpty_iff, and_assoc]

/-- C6 witness: the theorem evaluated on a concrete filesystem and concrete
results. -/
theorem C6_probe_result_invariants_witness :
    exceptIsOk (mkProbeResult c6disk ["http://res"] ["c.txt"] ["a.json"] ["b.csv"]) = true ∧
    (ProbeResult.url_list ⟨["http://res"], ["c.txt"], ["a.json"], ["b.csv"]⟩ =
      c6r.url_list ++ c6other.url_list) ∧
    (c6r.is_empty = true ↔
      (c6r.url_list = [] ∧ c6r.file_list = [] ∧ c6r.json_list = [] ∧ c6r.csv_list = [])) :=
  ⟨(C6_probe_result_invariants c6disk ["http://res"] ["c.txt"] ["a.json"] ["b.csv"]
      c6r c6other).1.mpr (by decide),
   ((C6_probe_result_invariants c6disk [] [] [] [] c6r c6other).2.1
      ⟨["http://res"], ["c.txt"], ["a.json"], ["b.csv"]⟩ (by rfl)).1,
   (C6_probe_result_invariants c6disk [] [] [] [] c6r c6other).2.2⟩

theorem mergeBoolField_comm (x y : Option Bool) : mergeBoolField x y = mergeBoolField y x := by
  cases x <;> cases y <;> simp only [mergeBoolField]
  rename_i v w
  by_cases hvw : v = w <;> simp [hvw, eq_comm]

theorem mergeMinBound_comm (x y : Option ℚ) : mergeMinBound x y = mergeMinBound y x := by
  cases x <;> cases y <;> simp [mergeMinBound, max_comm]

theorem mergeMaxBound_comm (x y : Option ℚ) : mergeMaxBound x y = mergeMaxBound y x := by
  cases x <;> cases y <;> simp [mergeMaxBound, min_comm]

theorem mergeMinBound_none_right (x : Option ℚ) : mergeMinBound x none = x := by
  cases x <;> rfl

theorem mergeMaxBound_none_right (x : Option ℚ) : mergeMaxBound x none = x := by
  cases x <;> rfl

/-- C7: `HostEnvironmentConfig.merge` is commutative; it fails exactly when
both configs set the same boolean field to disagreeing values; the merged
value of a min-bound field is the maximum of the two set values, of a
max-bound field the minimum; an unset field takes the other config's value. -/
theorem C7_env_config_merge (a b : HostEnvironmentConfig) :
    (HostEnvironmentConfig.merge a b = none ↔
      ∃ v w, a.power_use_battery = some v ∧ b.power_use_battery = some w ∧ v ≠ w) ∧
    HostEnvironmentConfig.merge a b = HostEnvironmentConfig.merge b a ∧
    (∀ m, HostEnvironmentConfig.merge a b = some m →
      (∀ v, a.power_use_battery = some v → b.power_use_battery = some v →
        m.power_use_battery = some v) ∧
      (∀ x y, a.cpu_min_relative_speed = some x → b.cpu_min_relative_speed = some y →
        m.cpu_min_relative_speed = some (max x y)) ∧
      (∀ x y, a.cpu_max_usage_percent = some x → b.cpu_max_usage_percent = some y →
        m.cpu_max_usage_percent = some (min x y)) ∧
      (∀ x y, a.disk_min_free_bytes = some x → b.disk_min_free_bytes = some y →
        m.disk_min_free_bytes = some (max x y)) ∧
      (a.power_use_battery = none → m.power_use_battery = b.power_use_battery) ∧
      (b.power_use_battery = none → m.power_use_battery = a.power_use_battery) ∧
      (a.cpu_min_relative_speed = none →
        m.cpu_min_relative_speed = b.cpu_min_relative_speed) ∧
      (b.cpu_min_relative_speed = none →
        m.cpu_min_relative_speed = a.cpu_min_relative_speed) ∧
      (a.cpu_max_usage_percent = none →
        m.cpu_max_usage_percent = b.cpu_max_usage_percent) ∧
      (b.cpu_max_usage_percent = none →
        m.cpu_max_usage_percent = a.cpu_max_usage_percent) ∧
      (a.disk_min_free_bytes = none → m.disk_min_free_bytes = b.disk_min_free_bytes) ∧
      (b.disk_min_free_bytes = none → m.disk_min_free_bytes = a.disk_min_free_bytes)) := by
  obtain ⟨pa, mina, maxa, da⟩ := a
  obtain ⟨pb, minb, maxb, db⟩ := b
  refine ⟨?_, ?_, ?_⟩
  · cases pa <;> cases pb <;>
      simp only [HostEnvironmentConfig.merge, mergeBoolField] <;> simp
    rename_i x y
    by_cases hxy : x = y <;> simp [hxy]
  · simp only [HostEnvironmentConfig.merge, mergeBoolField_comm pa pb,
      mergeMinBound_comm mina minb, mergeMaxBound_comm maxa maxb,
      mergeMinBound_comm da db]
  · intro m hm
    simp only [HostEnvironmentConfig.merge] at hm
    cases hb : mergeBoolField pa pb with
    | none => rw [hb] at hm; cases hm
    | some pub =>
      rw [hb] at hm
      cases hm
      refine ⟨?_, ?_, ?_, ?_, ?_, ?_, ?_, ?_, ?_, ?_, ?_, ?_⟩
      · intro v hv hw
        subst hv; subst hw
        simpa [mergeBoolField] using hb.symm
      · intro x y hx hy; subst hx; subst hy; rfl
      · intro x y hx hy; subst hx; subst hy; rfl
      · intro x y hx hy; subst hx; subst hy; rfl
      · intro hv; subst hv
        simpa [mergeBoolField] using hb.symm
      · intro hv; subst hv
        cases pa <;> simp only [mergeBoolField] at hb <;> exact (Option.some_injective _ hb).symm
      · intro hx; subst hx; rfl
      · intro hx; subst hx; exact mergeMinBound_none_right mina
      · intro hx; subst hx; rfl
      · intro hx; subst hx; exact mergeMaxBound_none_right maxa
      · intro hx; subst hx; rfl
      · intro hx; subst hx; exact mergeMinBound_none_right da

theorem C7_env_config_merge_witness :
    HostEnvironmentConfig.merge c7a c7conflict = none ∧
    HostEnvironmentConfig.merge c7a c7b = HostEnvironmentConfig.merge c7b c7a ∧
    HostEnvironmentConfig.cpu_min_relative_speed
        ⟨some false, some (max 1 (1/2)), some (min 100 0), some 5⟩ = some (max 1 (1/2)) :=
  ⟨(C7_env_config_merge c7a c7conflict).1.mpr ⟨false, true, rfl, rfl, by decide⟩,
   (C7_env_config_merge c7a c7b).2.1,
   ((C7_env_config_merge c7a c7b).2.2 ⟨some false, some (max 1 (1/2)), some (min 100 0), some 5⟩
      (by rfl)).2.1 1 (1/2) rfl rfl⟩

theorem flagsLookup_cons_of_ne (kv : String × Option String) (fs : Flags) (name : String)
    (h : (kv.1 == name) = false) : flagsLookup (kv :: fs) name = flagsLookup fs name := by
  simp only [flagsLookup, List.find?]
  rw [h]

theorem flagsLookup_cons_of_eq (kv : String × Option String) (fs : Flags) (name : String)
    (h : (kv.1 == name) = true) : flagsLookup (kv :: fs) name = some kv.2 := by
  simp only [flagsLookup, List.find?]
  rw [h]
  rfl

theorem flagsLookup_replace_self (fs : Flags) (name : String) (value : Option String)
    (h : flagsLookup fs name ≠ none) :
    flagsLookup (fs.map fun kv => if kv.1 == name then (name, value) else kv) name =
      some value := by
  induction fs with
  | nil => simp [flagsLookup] at h
  | cons kv fs ih =>
    by_cases hk : (kv.1 == name) = true
    · rw [List.map_cons, if_pos hk,
        flagsLookup_cons_of_eq ((name, value)) _ name (by simp)]
    · have hk' : (kv.1 == name) = false := by simpa using hk
      rw [flagsLookup_cons_of_ne kv fs name hk'] at h
      rw [List.map_cons, if_neg (by simp [hk']),
        flagsLookup_cons_of_ne kv _ name hk']
      exact ih h

theorem flagsLookup_replace_other (fs : Flags) (name other : String)
    (value : Option String) (h : other ≠ name) :
    flagsLookup (fs.map fun kv => if kv.1 == name then (name, value) else kv) other =
      flagsLookup fs other := by
  induction fs with
  | nil => rfl
  | cons kv fs ih =>
    by_cases hk : (kv.1 == name) = true
    · have hkeq : kv.1 = name := by simpa using hk
      have h1 : (name == other) = false := by simp [Ne.symm h]
      have h2 : (kv.1 == other) = false := by simp [hkeq, Ne.symm h]
      rw [List.map_cons, if_pos hk,
        flagsLookup_cons_of_ne ((name, value)) _ other (by simpa using h1),
        flagsLookup_cons_of_ne kv fs other h2]
      exact ih
    · have hk' : (kv.1 == name) = false := by simpa using hk
      rw [List.map_cons, if_neg (by simp [hk'])]
      by_cases ho : (kv.1 == other) = true
      · rw [flagsLookup_cons_of_eq kv _ other ho, flagsLookup_cons_of_eq kv fs other ho]
      · have ho' : (kv.1 == other) = false := by simpa using ho
        rw [flagsLookup_cons_of_ne kv _ other ho', flagsLookup_cons_of_ne kv fs other ho']
        exact ih

/-- C8: flags have set-once semantics — setting a flag to its current value
is a no-op that succeeds, setting an already-present flag to a different
value without override fails, and with override the value is replaced
(leaving every other flag unchanged). -/
theorem C8_flags_set_once (fs : Flags) (name : String) (v w : Option String) :
    (flagsLookup fs name = some v → flagsSet fs name v false = some fs) ∧
    (flagsLookup fs name = some v → v ≠ w → flagsSet fs name w false = none) ∧
    (flagsLookup fs name = some v →
      ∃ fs', flagsSet fs name w true = some fs' ∧
        flagsLookup fs' name = some w ∧
        ∀ other, other ≠ name → flagsLookup fs' other = flagsLookup fs other) := by
  refine ⟨?_, ?_, ?_⟩
  · intro hv
    simp [flagsSet, hv]
  · intro hv hne
    simp [flagsSet, hv, hne]
  · intro hv
    by_cases hvw : v = w
    · subst hvw
      exact ⟨fs, by simp [flagsSet, hv], hv, fun _ _ => rfl⟩
    · refine ⟨fs.map fun kv => if kv.1 == name then (name, w) else kv, ?_, ?_, ?_⟩
      · simp [flagsSet, hv, hvw]
      · exact flagsLookup_replace_self fs name w (by simp [hv])
      · intro other hother
        exact flagsLookup_replace_other fs name other w hother

theorem C8_flags_set_once_witness :
    flagsSet c8flags "--foo" (some "v1") false = some c8flags ∧
    flagsSet c8flags "--foo" (some "v2") false = none ∧
    ∃ fs', flagsSet c8flags "--foo" (some "v4") true = some fs' ∧
      flagsLookup fs' "--foo" = some (some "v4") ∧
      ∀ other, other ≠ "--foo" → flagsLookup fs' other = flagsLookup c8flags other :=
  ⟨(C8_flags_set_once c8flags "--foo" (some "v1") (some "v1")).1 (by rfl),
   (C8_flags_set_once c8flags "--foo" (some "v1") (some "v2")).2.1 (by rfl) (by decide),
   (C8_flags_set_once c8flags "--foo" (some "v1") (some "v4")).2.2 (by rfl)⟩

theorem cartesianTriples_length (browsers : List Browser) (stories : List Story)
    (R : Nat) :
    (cartesianTriples browsers stories R).length =
      R * (stories.length * browsers.length) := by
  simp [cartesianTriples, List.length_flatMap, Function.comp_def, List.map_const',
    List.sum_replicate, smul_eq_mul, mul_comm]

theorem get_flatMap_uniform {α β : Type} (f : α → List β) (m : Nat)
    (hm : ∀ a, (f a).length = m) (l : List α) :
    ∀ (i j : Nat) (hi : i < l.length) (hj : j < m) (a : α),
      l.get ⟨i, hi⟩ = a →
      ∀ (h : i * m + j < (l.flatMap f).length),
      (l.flatMap f).get ⟨i * m + j, h⟩ = (f a).get ⟨j, by rw [hm]; exact hj⟩ := by
  induction l with
  | nil => intro i j hi; exact absurd hi (by simp)
  | cons x l ih =>
    intro i j hi hj a ha h
    cases i with
    | zero =>
      simp only [List.get_eq_getElem, List.getElem_cons_zero] at ha
      subst ha
      simp only [List.flatMap_cons, List.get_eq_getElem] at h ⊢
      simp only [Nat.zero_mul, Nat.zero_add] at h ⊢
      rw [List.getElem_append_left (by rw [hm]; exact hj)]
    | succ i =>
      simp only [List.get_eq_getElem, List.getElem_cons_succ] at ha
      simp only [List.flatMap_cons, List.get_eq_getElem] at h ⊢
      have harith : (i + 1) * m + j = (f x).length + (i * m + j) := by
        rw [hm]; ring
      rw [List.getElem_append_right (by omega)]
      have hh : i * m + j < (l.flatMap f).length := by
        simp only [List.length_append] at h; omega
      have := ih i j (by simpa using hi) hj a (by simpa using ha) hh
      simp only [List.get_eq_getElem] at this
      have hidx : (i + 1) * m + j - (f x).length = i * m + j := by omega
      simp only [hidx]
      exact this

theorem cartesianTriples_keyT_nodup (browsers : List Browser) (stories : List Story)
    (R : Nat) (hb : (browsers.map Browser.unique_name).Nodup)
    (hs : (stories.map Story.name).Nodup) :
    ((cartesianTriples browsers stories R).map keyT).Nodup := by
  unfold cartesianTriples
  rw [List.map_flatMap, List.nodup_flatMap]
  constructor
  · intro rep _
    rw [List.map_flatMap, List.nodup_flatMap]
    constructor
    · intro s _
      rw [List.map_map]
      have heq : (keyT ∘ fun browser => (browser, s, rep)) =
          ((fun u => (u, s.name, rep)) ∘ Browser.unique_name) := rfl
      rw [heq, ← List.map_map]
      refine hb.map ?_
      intro u u' h
      simpa using h
    · have hp : List.Pairwise (fun s s' : Story => s.name ≠ s'.name) stories := by
        rw [← List.pairwise_map (f := Story.name)]
        exact hs
      refine hp.imp ?_
      intro s s' hne x hx hx'
      simp only [Function.onFun, List.map_map, List.mem_map, Function.comp] at hx hx'
      obtain ⟨b1, _, hb1⟩ := hx
      obtain ⟨b2, _, hb2⟩ := hx'
      apply hne
      have h1 : x.2.1 = s.name := by rw [← hb1]; rfl
      have h2 : x.2.1 = s'.name := by rw [← hb2]; rfl
      rw [← h1, h2]
  · have hp : List.Pairwise (fun rep rep' : Nat => rep ≠ rep') (List.range R) :=
      List.nodup_range R
    refine hp.imp ?_
    intro rep rep' hne x hx hx'
    simp only [Function.onFun, List.map_flatMap, List.mem_flatMap, List.map_map,
      List.mem_map, Function.comp] at hx hx'
    obtain ⟨s1, _, b1, _, hb1⟩ := hx
    obtain ⟨s2, _, b2, _, hb2⟩ := hx'
    apply hne
    have h1 : x.2.2 = rep := by rw [← hb1]; rfl
    have h2 : x.2.2 = rep' := by rw [← hb2]; rfl
    rw [← h1, h2]

theorem keyT_mem (browsers : List Browser) (stories : List Story) (R : Nat)
    (b : Browser) (s : Story) (rep : Nat)
    (hbm : b ∈ browsers) (hsm : s ∈ stories) (hrep : rep < R) :
    (b.unique_name, s.name, rep) ∈ (cartesianTriples browsers stories R).map keyT := by
  unfold cartesianTriples
  simp only [List.map_flatMap, List.mem_flatMap, List.map_map, List.mem_map]
  exact ⟨rep, List.mem_range.mpr hrep, s, hsm, b, hbm, rfl⟩

theorem get_runs_map_key (browsers : List Browser) (stories : List Story) (R : Nat) :
    (Runner.get_runs browsers stories R).map runKey =
      (cartesianTriples browsers stories R).map keyT := by
  unfold Runner.get_runs
  rw [List.map_map]
  have h : (runKey ∘ fun p : Nat × (Browser × Story × Nat) =>
      ({ browser := p.2.1, story := p.2.2.1, repetition := p.2.2.2,
         index := p.1 } : Run)) = keyT ∘ Prod.snd := rfl
  rw [h, ← List.map_map, List.enum_map_snd]

theorem inner_length (browsers : List Browser) (stories : List Story) (rep : Nat) :
    (stories.flatMap fun story =>
      browsers.map fun browser => (browser, story, rep)).length =
      stories.length * browsers.length := by
  simp [List.length_flatMap, Function.comp_def, List.map_const', List.sum_replicate,
    smul_eq_mul, mul_comm]

/-- C1: `Runner.get_runs` builds the Run list by the cartesian iteration
with repetition outermost, then stories, then browsers, assigning
sequential indices starting at 0; consequently (given the distinct browser
unique names asserted at Runner construction and distinct story names)
exactly one Run exists per (browser, story, repetition) triple, indices
are unique, and out_dirs are unique. -/
theorem C1_get_runs (browsers : List Browser) (stories : List Story) (R : Nat)
    (hb : (browsers.map Browser.unique_name).Nodup)
    (hs : (stories.map Story.name).Nodup) :
    (Runner.get_runs browsers stories R).length =
      R * (stories.length * browsers.length) ∧
    (Runner.get_runs browsers stories R).map Run.index =
      List.range (Runner.get_runs browsers stories R).length ∧
    (∀ rep si bi, rep < R → ∀ (hsi : si < stories.length)
      (hbi : bi < browsers.length)
      (hk : rep * (stories.length * browsers.length) + si * browsers.length + bi <
        (Runner.get_runs browsers stories R).length),
      (Runner.get_runs browsers stories R).get
          ⟨rep * (stories.length * browsers.length) + si * browsers.length + bi, hk⟩ =
        { browser := browsers.get ⟨bi, hbi⟩, story := stories.get ⟨si, hsi⟩,
          repetition := rep,
          index := rep * (stories.length * browsers.length) + si * browsers.length + bi }) ∧
    (∀ b ∈ browsers, ∀ s ∈ stories, ∀ rep < R,
      ((Runner.get_runs browsers stories R).countP
        fun r => decide (r.browser = b ∧ r.story = s ∧ r.repetition = rep)) = 1) ∧
    ((Runner.get_runs browsers stories R).map Run.index).Nodup ∧
    ((Runner.get_runs browsers stories R).map Run.get_out_dir).Nodup := by
  have hlen : (Runner.get_runs browsers stories R).length =
      R * (stories.length * browsers.length) := by
    simp [Runner.get_runs, List.enum_length, cartesianTriples_length]
  have hidx : (Runner.get_runs browsers stories R).map Run.index =
      List.range (Runner.get_runs browsers stories R).length := by
    unfold Runner.get_runs
    rw [List.map_map]
    have h : (Run.index ∘ fun p : Nat × (Browser × Story × Nat) =>
        ({ browser := p.2.1, story := p.2.2.1, repetition := p.2.2.2,
           index := p.1 } : Run)) = Prod.fst := rfl
    rw [h, List.enum_map_fst]
    simp [List.enum_length]
  refine ⟨hlen, hidx, ?_, ?_, ?_, ?_⟩
  · intro rep si bi hrep hsi hbi hk
    have hkc : rep * (stories.length * browsers.length) + si * browsers.length + bi <
        (cartesianTriples browsers stories R).length := by
      rw [cartesianTriples_length]; rw [hlen] at hk; exact hk
    have henum : rep * (stories.length * browsers.length) + si * browsers.length + bi <
        (cartesianTriples browsers stories R).enum.length := by
      rw [List.enum_length]; exact hkc
    unfold Runner.get_runs
    rw [List.get_eq_getElem, List.getElem_map, List.getElem_enum]
    have hj : si * browsers.length + bi < stories.length * browsers.length := by
      have h1 : si * browsers.length + bi < (si + 1) * browsers.length := by
        have he : (si + 1) * browsers.length = si * browsers.length + browsers.length := by
          ring
        omega
      have h2 : (si + 1) * browsers.length ≤ stories.length * browsers.length :=
        Nat.mul_le_mul_right _ hsi
      omega
    have hassoc : rep * (stories.length * browsers.length) + si * browsers.length + bi =
        rep * (stories.length * browsers.length) + (si * browsers.length + bi) := by omega
    have hkc2 : rep * (stories.length * browsers.length) + (si * browsers.length + bi) <
        ((List.range R).flatMap (fun rep => stories.flatMap fun story =>
          browsers.map fun browser => (browser, story, rep))).length := by
      rw [← hassoc]
      simpa [cartesianTriples] using hkc
    have houter := get_flatMap_uniform
      (fun rep => stories.flatMap fun story =>
        browsers.map fun browser => (browser, story, rep))
      (stories.length * browsers.length)
      (fun rep => inner_length browsers stories rep)
      (List.range R) rep (si * browsers.length + bi)
      (by simpa using hrep) hj rep (by simp) hkc2
    have hinner := get_flatMap_uniform
      (fun story => browsers.map fun browser => (browser, story, rep))
      browsers.length
      (fun story => by simp)
      stories si bi hsi hbi (stories.get ⟨si, hsi⟩) rfl
      (by rw [inner_length]; exact hj)
    have ht : (cartesianTriples browsers stories R).get
        ⟨rep * (stories.length * browsers.length) + si * browsers.length + bi, hkc⟩ =
        (browsers.get ⟨bi, hbi⟩, stories.get ⟨si, hsi⟩, rep) := by
      have hcart : (cartesianTriples browsers stories R).get
          ⟨rep * (stories.length * browsers.length) + si * browsers.length + bi, hkc⟩ =
          ((List.range R).flatMap (fun rep => stories.flatMap fun story =>
            browsers.map fun browser => (browser, story, rep))).get
            ⟨rep * (stories.length * browsers.length) + (si * browsers.length + bi), hkc2⟩ := by
        simp only [cartesianTriples, hassoc]
      rw [hcart, houter, hinner, List.get_eq_getElem, List.getElem_map]
      rfl
    simp only [List.get_eq_getElem] at ht
    rw [ht]
    rfl
  · intro b hbm s hsm rep hrep
    have hkeys : ((Runner.get_runs browsers stories R).map runKey).Nodup := by
      rw [get_runs_map_key]; exact cartesianTriples_keyT_nodup browsers stories R hb hs
    have hmem : (b.unique_name, s.name, rep) ∈
        (Runner.get_runs browsers stories R).map runKey := by
      rw [get_runs_map_key]; exact keyT_mem browsers stories R b s rep hbm hsm hrep
    have hcount := List.count_eq_one_of_mem hkeys hmem
    have hcountP : ((Runner.get_runs browsers stories R).map runKey).countP
        (fun x => decide (x = (b.unique_name, s.name, rep))) = 1 := hcount
    rw [List.countP_map] at hcountP
    have hcount2 : (Runner.get_runs browsers stories R).countP
        (fun r => decide (runKey r = (b.unique_name, s.name, rep))) = 1 := hcountP
    rw [← hcount2]
    apply List.countP_congr
    intro r _
    simp only [decide_eq_true_eq]
    obtain ⟨⟨ub⟩, ⟨us⟩, rr, ri⟩ := r
    obtain ⟨u⟩ := b
    obtain ⟨sn⟩ := s
    simp [runKey, Prod.ext_iff, and_assoc]
  · rw [hidx]
    exact List.nodup_range _
  · have hkeys : ((Runner.get_runs browsers stories R).map runKey).Nodup := by
      rw [get_runs_map_key]; exact cartesianTriples_keyT_nodup browsers stories R hb hs
    have hmapeq : (Runner.get_runs browsers stories R).map Run.get_out_dir =
        ((Runner.get_runs browsers stories R).map runKey).map
          (fun t => OutDir.mk t.1 t.2.1 t.2.2) := by
      rw [List.map_map]; rfl
    rw [hmapeq]
    refine hkeys.map ?_
    intro t t' h
    obtain ⟨a1, a2, a3⟩ := t
    obtain ⟨a4, a5, a6⟩ := t'
    simpa using h

theorem C1_get_runs_witness :
    (c1browsers.map Browser.unique_name).Nodup ∧
    (c1stories.map Story.name).Nodup ∧
    (Runner.get_runs c1browsers c1stories 2).length = 2 * (2 * 2) ∧
    ((Runner.get_runs c1browsers c1stories 2).countP
      fun r => decide (r.browser = ⟨"firefox"⟩ ∧ r.story = ⟨"jetstream"⟩ ∧
        r.repetition = 1)) = 1 ∧
    ((Runner.get_runs c1browsers c1stories 2).map Run.get_out_dir).Nodup :=
  ⟨by decide, by decide,
   (C1_get_runs c1browsers c1stories 2 (by decide) (by decide)).1,
   (C1_get_runs c1browsers c1stories 2 (by decide) (by decide)).2.2.2.1
     ⟨"firefox"⟩ (by decide) ⟨"jetstream"⟩ (by decide) 1 (by decide),
   (C1_get_runs c1browsers c1stories 2 (by decide) (by decide)).2.2.2.2.2⟩

theorem groupMerge_fold (level : MergeLevel) (group : Nat)
    (hook : MergeLevel → Nat → Probe → Option ProbeResult) (l : List Probe) :
    ∀ acc : List MergeEvent × List (String × ProbeResult),
      l.foldl
        (fun acc probe =>
          match hook level group probe with
          | none => (acc.1 ++ [⟨level, group, probe.name⟩], acc.2)
          | some res =>
            (acc.1 ++ [⟨level, group, probe.name⟩], acc.2 ++ [(probe.name, res)]))
        acc =
      (acc.1 ++ l.map fun p => (⟨level, group, p.name⟩ : MergeEvent),
       acc.2 ++ l.filterMap fun p => (hook level group p).map fun res => (p.name, res)) := by
  induction l with
  | nil => intro acc; simp
  | cons p l ih =>
    intro acc
    simp only [List.foldl_cons]
    cases hp : hook level group p with
    | none =>
      rw [ih]
      simp [hp]
    | some res =>
      rw [ih]
      simp [hp]

theorem groupMerge_trace (level : MergeLevel) (group : Nat) (probes : List Probe)
    (hook : MergeLevel → Nat → Probe → Option ProbeResult) :
    (RunGroup.merge level group probes hook).1 =
      probes.reverse.map fun p => (⟨level, group, p.name⟩ : MergeEvent) := by
  unfold RunGroup.merge
  rw [groupMerge_fold]
  simp

theorem groupMerge_stored (level : MergeLevel) (group : Nat) (probes : List Probe)
    (hook : MergeLevel → Nat → Probe → Option ProbeResult) :
    (RunGroup.merge level group probes hook).2 =
      probes.reverse.filterMap fun p =>
        (hook level group p).map fun res => (p.name, res) := by
  unfold RunGroup.merge
  rw [groupMerge_fold]
  simp

theorem block_ranks (lv : MergeLevel) (count : Nat) (probes : List Probe)
    (hook : MergeLevel → Nat → Probe → Option ProbeResult) :
    ((List.range count).flatMap fun g => (RunGroup.merge lv g probes hook).1).map
      (fun e => levelRank e.level) =
      List.replicate (count * probes.length) (levelRank lv) := by
  rw [List.eq_replicate_iff]
  constructor
  · rw [List.length_map, List.length_flatMap]
    have h : ∀ g, ((RunGroup.merge lv g probes hook).1).length = probes.length := by
      intro g
      rw [groupMerge_trace, List.length_map, List.length_reverse]
    simp only [Function.comp_def, h, List.map_const', List.length_range,
      List.sum_replicate, smul_eq_mul]
  · intro b hb
    simp only [List.mem_map, List.mem_flatMap] at hb
    obtain ⟨e, ⟨g, _, he⟩, hb⟩ := hb
    rw [groupMerge_trace] at he
    obtain ⟨p, _, hp⟩ := List.mem_map.mp he
    rw [← hb, ← hp]

/-- C2: during the merge cascade the three group levels are processed
innermost to outermost (every repetitions-level hook call precedes every
stories-level call, which precede the browsers-level calls); within each
group the probes are iterated in exactly the reverse attach order and
every non-None result is stored; with the default attach order the
results-summary probe merges last at every level. -/
theorem C2_merge_cascade (probes additional : List Probe)
    (repGroupCount storyGroupCount : Nat)
    (hook : MergeLevel → Nat → Probe → Option ProbeResult) :
    (∀ level group,
      (RunGroup.merge level group probes hook).1 =
        probes.reverse.map fun p => (⟨level, group, p.name⟩ : MergeEvent)) ∧
    (∀ level group,
      (RunGroup.merge level group probes hook).2 =
        probes.reverse.filterMap fun p =>
          (hook level group p).map fun res => (p.name, res)) ∧
    ((Runner.tearDownMerge probes repGroupCount storyGroupCount hook).map
      fun e => levelRank e.level) =
      List.replicate (repGroupCount * probes.length) 0 ++
      List.replicate (storyGroupCount * probes.length) 1 ++
      List.replicate probes.length 2 ∧
    (∀ level group,
      ((RunGroup.merge level group (attachDefaultProbes additional) hook).1).getLast? =
        some ⟨level, group, "results"⟩) := by
  refine ⟨fun level group => groupMerge_trace level group probes hook,
    fun level group => groupMerge_stored level group probes hook, ?_, ?_⟩
  · unfold Runner.tearDownMerge
    rw [List.map_append, List.map_append]
    rw [block_ranks .repetitions repGroupCount probes hook,
      block_ranks .stories storyGroupCount probes hook]
    rw [groupMerge_trace, List.map_map]
    congr 1
    rw [List.eq_replicate_iff]
    constructor
    · simp
    · intro b hb
      simp only [List.mem_map] at hb
      obtain ⟨p, _, hp⟩ := hb
      rw [← hp]
      rfl
  · intro level group
    rw [groupMerge_trace]
    unfold attachDefaultProbes
    rw [List.reverse_cons, List.map_append, List.getLast?_append]
    simp

theorem mkdir_exist_ok (fs : List String) (p : String) (parents : Bool) :
    Path.mkdir fs p parents true = .ok (if p ∈ fs then fs else p :: fs) := by
  unfold Path.mkdir
  split <;> simp_all

theorem tearDownNames_append (a b : List RunEvent) :
    tearDownNames (a ++ b) = tearDownNames a ++ tearDownNames b := by
  simp [tearDownNames, List.filterMap_append]

theorem setupNames_append (a b : List RunEvent) :
    setupNames (a ++ b) = setupNames a ++ setupNames b := by
  simp [setupNames, List.filterMap_append]

theorem warnEmptyNames_append (a b : List RunEvent) :
    warnEmptyNames (a ++ b) = warnEmptyNames a ++ warnEmptyNames b := by
  simp [warnEmptyNames, List.filterMap_append]

theorem tearDownNames_creationBlock (scopes : List ScopeSpec) :
    tearDownNames (creationBlock scopes) = [] := by
  induction scopes with
  | nil => rfl
  | cons s rest ih =>
    simp only [creationBlock, List.flatMap_cons] at ih ⊢
    rw [tearDownNames_append, ih]
    cases s.producesData <;> simp [tearDownNames]

theorem setupNames_creationBlock (scopes : List ScopeSpec) :
    setupNames (creationBlock scopes) = [] := by
  induction scopes with
  | nil => rfl
  | cons s rest ih =>
    simp only [creationBlock, List.flatMap_cons] at ih ⊢
    rw [setupNames_append, ih]
    cases s.producesData <;> simp [setupNames]

theorem warnEmptyNames_creationBlock (scopes : List ScopeSpec) :
    warnEmptyNames (creationBlock scopes) = [] := by
  induction scopes with
  | nil => rfl
  | cons s rest ih =>
    simp only [creationBlock, List.flatMap_cons] at ih ⊢
    rw [warnEmptyNames_append, ih]
    cases s.producesData <;> simp [warnEmptyNames]

theorem tearDownNames_tdScopeBlock (l : List ScopeSpec) :
    tearDownNames (tdScopeBlock l) = l.map ScopeSpec.sname := by
  induction l with
  | nil => rfl
  | cons s rest ih =>
    simp only [tdScopeBlock, List.flatMap_cons] at ih ⊢
    rw [tearDownNames_append, ih]
    cases hr : s.tearDownRaises <;> cases he : s.tearDownEmpty <;> simp [tearDownNames]

theorem setupNames_tdScopeBlock (l : List ScopeSpec) :
    setupNames (tdScopeBlock l) = [] := by
  induction l with
  | nil => rfl
  | cons s rest ih =>
    simp only [tdScopeBlock, List.flatMap_cons] at ih ⊢
    rw [setupNames_append, ih]
    cases hr : s.tearDownRaises <;> cases he : s.tearDownEmpty <;> simp [setupNames]

theorem warnEmptyNames_tdScopeBlock (l : List ScopeSpec) :
    warnEmptyNames (tdScopeBlock l) =
      (l.filter fun s => !s.tearDownRaises && s.tearDownEmpty).map ScopeSpec.sname := by
  induction l with
  | nil => rfl
  | cons s rest ih =>
    simp only [tdScopeBlock, List.flatMap_cons, List.filter_cons] at ih ⊢
    rw [warnEmptyNames_append, ih]
    cases hr : s.tearDownRaises <;> cases he : s.tearDownEmpty <;> simp [warnEmptyNames]

theorem tearDownNames_setupBlock (l : List ScopeSpec) :
    tearDownNames (setupBlock l) = [] := by
  induction l with
  | nil => rfl
  | cons s rest ih =>
    simp only [setupBlock, List.map_cons] at ih ⊢
    simp [tearDownNames, ih]

theorem setupNames_setupBlock (l : List ScopeSpec) :
    setupNames (setupBlock l) = l.map ScopeSpec.sname := by
  induction l with
  | nil => rfl
  | cons s rest ih =>
    simp only [setupBlock, List.map_cons] at ih ⊢
    rw [show (RunEvent.scopeSetup s.sname ::
        List.map (fun s => RunEvent.scopeSetup s.sname) rest) =
      [RunEvent.scopeSetup s.sname] ++
        List.map (fun s => RunEvent.scopeSetup s.sname) rest from rfl]
    rw [setupNames_append, ih]
    rfl

theorem warnEmptyNames_setupBlock (l : List ScopeSpec) :
    warnEmptyNames (setupBlock l) = [] := by
  induction l with
  | nil => rfl
  | cons s rest ih =>
    simp only [setupBlock, List.map_cons] at ih ⊢
    simp [warnEmptyNames, ih]

theorem tearDownNames_startBlock (l : List ScopeSpec) :
    tearDownNames (startBlock l) = [] := by
  induction l with
  | nil => rfl
  | cons s rest ih =>
    simp only [startBlock, List.map_cons] at ih ⊢
    simp [tearDownNames, ih]

theorem setupNames_startBlock (l : List ScopeSpec) :
    setupNames (startBlock l) = [] := by
  induction l with
  | nil => rfl
  | cons s rest ih =>
    simp only [startBlock, List.map_cons] at ih ⊢
    simp [setupNames, ih]

theorem warnEmptyNames_startBlock (l : List ScopeSpec) :
    warnEmptyNames (startBlock l) = [] := by
  induction l with
  | nil => rfl
  | cons s rest ih =>
    simp only [startBlock, List.map_cons] at ih ⊢
    simp [warnEmptyNames, ih]

theorem tearDownNames_stopBlock (l : List ScopeSpec) :
    tearDownNames (stopBlock l) = [] := by
  induction l with
  | nil => rfl
  | cons s rest ih =>
    simp only [stopBlock, List.map_cons] at ih ⊢
    simp [tearDownNames, ih]

theorem setupNames_stopBlock (l : List ScopeSpec) :
    setupNames (stopBlock l) = [] := by
  induction l with
  | nil => rfl
  | cons s rest ih =>
    simp only [stopBlock, List.map_cons] at ih ⊢
    simp [setupNames, ih]

theorem warnEmptyNames_stopBlock (l : List ScopeSpec) :
    warnEmptyNames (stopBlock l) = [] := by
  induction l with
  | nil => rfl
  | cons s rest ih =>
    simp only [stopBlock, List.map_cons] at ih ⊢
    simp [warnEmptyNames, ih]

theorem tearDownNames_nil : tearDownNames [] = [] := rfl

theorem tearDownNames_mkOutDir : tearDownNames [RunEvent.mkOutDir] = [] := rfl

theorem tearDownNames_browserSetup : tearDownNames [RunEvent.browserSetup] = [] := rfl

theorem tearDownNames_storyRun : tearDownNames [RunEvent.storyRun] = [] := rfl

theorem tearDownNames_scopeSetup_one (n : String) :
    tearDownNames [RunEvent.scopeSetup n] = [] := rfl

theorem setupNames_nil : setupNames [] = [] := rfl

theorem setupNames_mkOutDir : setupNames [RunEvent.mkOutDir] = [] := rfl

theorem setupNames_browserSetup : setupNames [RunEvent.browserSetup] = [] := rfl

theorem setupNames_storyRun : setupNames [RunEvent.storyRun] = [] := rfl

theorem setupNames_scopeSetup_one (n : String) :
    setupNames [RunEvent.scopeSetup n] = [n] := rfl

theorem warnEmptyNames_nil : warnEmptyNames [] = [] := rfl

theorem warnEmptyNames_mkOutDir : warnEmptyNames [RunEvent.mkOutDir] = [] := rfl

theorem warnEmptyNames_browserSetup : warnEmptyNames [RunEvent.browserSetup] = [] := rfl

theorem warnEmptyNames_storyRun : warnEmptyNames [RunEvent.storyRun] = [] := rfl

theorem warnEmptyNames_scopeSetup_one (n : String) :
    warnEmptyNames [RunEvent.scopeSetup n] = [] := rfl

theorem tearDownNames_cons_mkOutDir (l : List RunEvent) :
    tearDownNames (RunEvent.mkOutDir :: l) = tearDownNames l := rfl

theorem tearDownNames_cons_browserSetup (l : List RunEvent) :
    tearDownNames (RunEvent.browserSetup :: l) = tearDownNames l := rfl

theorem tearDownNames_cons_storyRun (l : List RunEvent) :
    tearDownNames (RunEvent.storyRun :: l) = tearDownNames l := rfl

theorem tearDownNames_cons_scopeSetup (n : String) (l : List RunEvent) :
    tearDownNames (RunEvent.scopeSetup n :: l) = tearDownNames l := rfl

theorem setupNames_cons_mkOutDir (l : List RunEvent) :
    setupNames (RunEvent.mkOutDir :: l) = setupNames l := rfl

theorem setupNames_cons_browserSetup (l : List RunEvent) :
    setupNames (RunEvent.browserSetup :: l) = setupNames l := rfl

theorem setupNames_cons_storyRun (l : List RunEvent) :
    setupNames (RunEvent.storyRun :: l) = setupNames l := rfl

theorem setupNames_cons_scopeSetup (n : String) (l : List RunEvent) :
    setupNames (RunEvent.scopeSetup n :: l) = n :: setupNames l := rfl

theorem warnEmptyNames_cons_mkOutDir (l : List RunEvent) :
    warnEmptyNames (RunEvent.mkOutDir :: l) = warnEmptyNames l := rfl

theorem warnEmptyNames_cons_browserSetup (l : List RunEvent) :
    warnEmptyNames (RunEvent.browserSetup :: l) = warnEmptyNames l := rfl

theorem warnEmptyNames_cons_storyRun (l : List RunEvent) :
    warnEmptyNames (RunEvent.storyRun :: l) = warnEmptyNames l := rfl

theorem warnEmptyNames_cons_scopeSetup (n : String) (l : List RunEvent) :
    warnEmptyNames (RunEvent.scopeSetup n :: l) = warnEmptyNames l := rfl

theorem setupScopesPhase_clean (scopes : List ScopeSpec)
    (hclean : ∀ s ∈ scopes, s.setupRaises = false) :
    ∀ st : RunState,
      setupScopesPhase scopes st =
        ({ st with events := st.events ++ setupBlock scopes }, none) := by
  induction scopes with
  | nil => intro st; simp [setupScopesPhase, setupBlock]
  | cons s rest ih =>
    intro st
    have hs : s.setupRaises = false := hclean s (by simp)
    simp only [setupScopesPhase, hs, Bool.false_eq_true, if_false, setupBlock,
      List.map_cons, List.append_eq]
    rw [ih (fun x hx => hclean x (by simp [hx]))]
    simp [setupBlock]

theorem setupScopesPhase_raise (pre : List ScopeSpec) (bad : ScopeSpec)
    (post : List ScopeSpec) (hclean : ∀ s ∈ pre, s.setupRaises = false)
    (hbad : bad.setupRaises = true) :
    ∀ st : RunState,
      setupScopesPhase (pre ++ bad :: post) st =
        ({ st with events := st.events ++ setupBlock pre ++
            [RunEvent.scopeSetup bad.sname] },
         some ("Probe " ++ bad.sname ++ " setup raised")) := by
  induction pre with
  | nil => intro st; simp [setupScopesPhase, hbad, setupBlock]
  | cons s rest ih =>
    intro st
    have hs : s.setupRaises = false := hclean s (by simp)
    simp only [List.cons_append, setupScopesPhase, hs, Bool.false_eq_true, if_false,
      setupBlock, List.map_cons, List.append_eq]
    rw [ih (fun x hx => hclean x (by simp [hx]))]
    simp [setupBlock]

theorem runSetup_success (beh : RunBehavior) (scopes : List ScopeSpec) (st : RunState)
    (h0 : st.state = 0) (hnodup : (scopes.map ScopeSpec.sname).Nodup)
    (hclean : ∀ s ∈ scopes, s.setupRaises = false)
    (hbs : beh.browserSetupRaises = false) :
    Run.setup beh scopes false st =
      ({ st with
          state := 1
          events := st.events ++ creationBlock scopes ++ setupBlock scopes ++
            [RunEvent.browserSetup]
          resultEntries := st.resultEntries ++ seedBlock scopes
          browserRunning := true }, none) := by
  unfold Run.setup
  rw [if_neg (by simp [h0]), if_neg (by simp), if_neg (by simp [hnodup])]
  unfold creationPhase
  dsimp only
  rw [setupScopesPhase_clean scopes hclean]
  simp [hbs, List.append_assoc]

theorem runTearDown_normal (beh : RunBehavior) (scopes : List ScopeSpec) (st : RunState)
    (h2 : st.state = 2) (hbr : st.browserRunning = true) :
    Run.tear_down beh scopes false st =
      (rmTmpDirPhase (tearDownScopesPhase scopes
        (quitCapturePhase beh { st with state := 3 })), none) := by
  unfold Run.tear_down
  rw [if_neg (by simp [h2])]
  simp [hbr]

theorem tearDownNames_quitCapture (beh : RunBehavior) (st : RunState) :
    tearDownNames (quitCapturePhase beh st).events = tearDownNames st.events := by
  unfold quitCapturePhase
  split <;> simp [tearDownNames_append, tearDownNames]

theorem setupNames_quitCapture (beh : RunBehavior) (st : RunState) :
    setupNames (quitCapturePhase beh st).events = setupNames st.events := by
  unfold quitCapturePhase
  split <;> simp [setupNames_append, setupNames]

theorem warnEmptyNames_quitCapture (beh : RunBehavior) (st : RunState) :
    warnEmptyNames (quitCapturePhase beh st).events = warnEmptyNames st.events := by
  unfold quitCapturePhase
  split <;> simp [warnEmptyNames_append, warnEmptyNames]

theorem tearDownNames_rmTmpDir (st : RunState) :
    tearDownNames (rmTmpDirPhase st).events = tearDownNames st.events := by
  unfold rmTmpDirPhase
  split <;> simp [tearDownNames_append, tearDownNames]

theorem setupNames_rmTmpDir (st : RunState) :
    setupNames (rmTmpDirPhase st).events = setupNames st.events := by
  unfold rmTmpDirPhase
  split <;> simp [setupNames_append, setupNames]

theorem warnEmptyNames_rmTmpDir (st : RunState) :
    warnEmptyNames (rmTmpDirPhase st).events = warnEmptyNames st.events := by
  unfold rmTmpDirPhase
  split <;> simp [warnEmptyNames_append, warnEmptyNames]

theorem tearDownNames_tdPhase (scopes : List ScopeSpec) (st : RunState) :
    tearDownNames (tearDownScopesPhase scopes st).events =
      tearDownNames st.events ++ (scopes.map ScopeSpec.sname).reverse := by
  unfold tearDownScopesPhase
  dsimp only
  rw [tearDownNames_append, tearDownNames_tdScopeBlock, List.map_reverse]

theorem setupNames_tdPhase (scopes : List ScopeSpec) (st : RunState) :
    setupNames (tearDownScopesPhase scopes st).events = setupNames st.events := by
  unfold tearDownScopesPhase
  dsimp only
  rw [setupNames_append, setupNames_tdScopeBlock, List.append_nil]

theorem warnEmptyNames_tdPhase (scopes : List ScopeSpec) (st : RunState) :
    warnEmptyNames (tearDownScopesPhase scopes st).events =
      warnEmptyNames st.events ++
        (scopes.reverse.filter fun s => !s.tearDownRaises && s.tearDownEmpty).map
          ScopeSpec.sname := by
  unfold tearDownScopesPhase
  dsimp only
  rw [warnEmptyNames_append, warnEmptyNames_tdScopeBlock]

theorem quitCapturePhase_state (beh : RunBehavior) (st : RunState) :
    (quitCapturePhase beh st).state = st.state := by
  unfold quitCapturePhase
  split <;> rfl

theorem rmTmpDirPhase_state (st : RunState) :
    (rmTmpDirPhase st).state = st.state := by
  unfold rmTmpDirPhase
  split <;> rfl

theorem runRun_success_eq (beh : RunBehavior) (scopes : List ScopeSpec)
    (fs : List String) (out_dir : String) (st : RunState)
    (h0 : st.state = 0) (hnodup : (scopes.map ScopeSpec.sname).Nodup)
    (hclean : ∀ s ∈ scopes, s.setupRaises = false)
    (hbs : beh.browserSetupRaises = false) :
    Run.run beh scopes fs out_dir false st =
      (rmTmpDirPhase (tearDownScopesPhase scopes (quitCapturePhase beh
        { st with
            state := 3
            events := st.events ++ [RunEvent.mkOutDir] ++ creationBlock scopes ++
              setupBlock scopes ++ [RunEvent.browserSetup] ++ startBlock scopes ++
              [RunEvent.storyRun] ++ stopBlock scopes.reverse
            errors := st.errors ++ (if beh.storyRaises then ["story raised"] else [])
            resultEntries := st.resultEntries ++ seedBlock scopes
            browserRunning := true })), none) := by
  unfold Run.run
  rw [mkdir_exist_ok]
  dsimp only
  rw [runSetup_success beh scopes _ (by simp [h0]) hnodup hclean hbs]
  dsimp only
  rw [if_neg (by simp)]
  unfold runPhase
  dsimp only
  cases hsr : beh.storyRaises
  · rw [runTearDown_normal beh scopes _ rfl rfl]
    simp [List.append_assoc]
  · rw [runTearDown_normal beh scopes _ rfl rfl]
    simp [List.append_assoc]

theorem tearDownScopesPhase_state (scopes : List ScopeSpec) (st : RunState) :
    (tearDownScopesPhase scopes st).state = st.state := rfl

theorem runRun_setup_raise_eq (beh : RunBehavior) (scopes : List ScopeSpec)
    (fs : List String) (out_dir : String) (st : RunState) (h0 : st.state = 0)
    (pre : List ScopeSpec) (bad : ScopeSpec) (post : List ScopeSpec)
    (hsc : scopes = pre ++ bad :: post)
    (hclean : ∀ s ∈ pre, s.setupRaises = false) (hbad : bad.setupRaises = true)
    (hnodup : (scopes.map ScopeSpec.sname).Nodup) :
    Run.run beh scopes fs out_dir false st =
      ({ st with
          state := 1
          events := st.events ++ [RunEvent.mkOutDir] ++ creationBlock scopes ++
            setupBlock pre ++ [RunEvent.scopeSetup bad.sname]
          resultEntries := st.resultEntries ++ seedBlock scopes },
       some ("Probe " ++ bad.sname ++ " setup raised")) := by
  unfold Run.run
  rw [mkdir_exist_ok]
  dsimp only
  unfold Run.setup
  rw [if_neg (by simp [h0]), if_neg (by simp), if_neg (by simp [hnodup])]
  unfold creationPhase
  dsimp only
  rw [hsc, setupScopesPhase_raise pre bad post hclean hbad]

theorem runRun_dup_eq (beh : RunBehavior) (scopes : List ScopeSpec)
    (fs : List String) (out_dir : String) (st : RunState) (h0 : st.state = 0)
    (hdup : ¬ (scopes.map ScopeSpec.sname).Nodup) :
    Run.run beh scopes fs out_dir false st =
      ({ st with
          state := 1
          events := st.events ++ [RunEvent.mkOutDir] }, some "duplicate probe") := by
  unfold Run.run
  rw [mkdir_exist_ok]
  dsimp only
  unfold Run.setup
  rw [if_neg (by simp [h0]), if_neg (by simp), if_pos hdup]

/-- C3 (amended): whenever probe-scope teardown runs, it runs in the exact
reverse of the scopes' setup order, and a warning is emitted for every
probe whose teardown produced an empty result; but if a probe scope's
`setup(run)` raises, the exception propagates out of `Run.run` (setup is
wrapped in a non-capturing `exception_info` scope and sits before the
try/finally), so no probe `tear_down` runs at all and the Run never
reaches DONE. -/
theorem C3_teardown_reverse_order (beh : RunBehavior) (scopes : List ScopeSpec)
    (fs : List String) (out_dir : String) (st : RunState)
    (h0 : st.state = 0) (hev : st.events = []) :
    ((scopes.map ScopeSpec.sname).Nodup →
      (∀ s ∈ scopes, s.setupRaises = false) →
      beh.browserSetupRaises = false →
      (Run.run beh scopes fs out_dir false st).2 = none ∧
      (Run.run beh scopes fs out_dir false st).1.state = 3 ∧
      tearDownNames (Run.run beh scopes fs out_dir false st).1.events =
        (scopes.map ScopeSpec.sname).reverse ∧
      setupNames (Run.run beh scopes fs out_dir false st).1.events =
        scopes.map ScopeSpec.sname ∧
      warnEmptyNames (Run.run beh scopes fs out_dir false st).1.events =
        (scopes.reverse.filter fun s => !s.tearDownRaises && s.tearDownEmpty).map
          ScopeSpec.sname) ∧
    (∀ pre bad post, scopes = pre ++ bad :: post →
      (∀ s ∈ pre, s.setupRaises = false) → bad.setupRaises = true →
      (Run.run beh scopes fs out_dir false st).2.isSome = true ∧
      tearDownNames (Run.run beh scopes fs out_dir false st).1.events = [] ∧
      (Run.run beh scopes fs out_dir false st).1.state = 1) := by
  constructor
  · intro hnodup hclean hbs
    rw [runRun_success_eq beh scopes fs out_dir st h0 hnodup hclean hbs]
    refine ⟨rfl, ?_, ?_, ?_, ?_⟩
    · rw [rmTmpDirPhase_state, tearDownScopesPhase_state, quitCapturePhase_state]
    · rw [tearDownNames_rmTmpDir, tearDownNames_tdPhase, tearDownNames_quitCapture]
      dsimp only
      simp [hev, tearDownNames_append, tearDownNames_creationBlock,
        tearDownNames_setupBlock, tearDownNames_startBlock, tearDownNames_stopBlock,
        tearDownNames_nil, tearDownNames_cons_mkOutDir, tearDownNames_cons_browserSetup,
        tearDownNames_cons_storyRun]
    · rw [setupNames_rmTmpDir, setupNames_tdPhase, setupNames_quitCapture]
      dsimp only
      simp [hev, setupNames_append, setupNames_creationBlock,
        setupNames_setupBlock, setupNames_startBlock, setupNames_stopBlock,
        setupNames_nil, setupNames_cons_mkOutDir, setupNames_cons_browserSetup,
        setupNames_cons_storyRun]
    · rw [warnEmptyNames_rmTmpDir, warnEmptyNames_tdPhase, warnEmptyNames_quitCapture]
      dsimp only
      simp [hev, warnEmptyNames_append, warnEmptyNames_creationBlock,
        warnEmptyNames_setupBlock, warnEmptyNames_startBlock, warnEmptyNames_stopBlock,
        warnEmptyNames_nil, warnEmptyNames_cons_mkOutDir, warnEmptyNames_cons_browserSetup,
        warnEmptyNames_cons_storyRun]
  · intro pre bad post hsc hclean hbad
    by_cases hnodup : (scopes.map ScopeSpec.sname).Nodup
    · rw [runRun_setup_raise_eq beh scopes fs out_dir st h0 pre bad post hsc hclean
        hbad hnodup]
      refine ⟨rfl, ?_, rfl⟩
      dsimp only
      simp [hev, tearDownNames_append, tearDownNames_creationBlock,
        tearDownNames_setupBlock, tearDownNames_nil, tearDownNames_cons_mkOutDir,
        tearDownNames_cons_scopeSetup]
    · rw [runRun_dup_eq beh scopes fs out_dir st h0 hnodup]
      refine ⟨rfl, ?_, rfl⟩
      dsimp only
      simp [hev, tearDownNames_append, tearDownNames_nil, tearDownNames_cons_mkOutDir]

/-- C3 counterexample: with two scopes whose second setup raises, the
exception escapes `Run.run`, no `tear_down` is invoked (the original claim
says the probe's tear_down is still invoked), and the Run is left in
PREPARE, not completed. -/
theorem C3_counterexample :
    ((Run.run c3beh [c3goodA, c3bad] [] "out" false initialRunState).2).isSome = true ∧
    tearDownNames
      (Run.run c3beh [c3goodA, c3bad] [] "out" false initialRunState).1.events = [] ∧
    (Run.run c3beh [c3goodA, c3bad] [] "out" false initialRunState).1.state = 1 := by
  decide

/-- C3 witness: the amended theorem evaluated on concrete scope lists. -/
theorem C3_teardown_reverse_order_witness :
    (tearDownNames
        (Run.run c3beh [c3goodA, c3goodB] [] "out" false initialRunState).1.events =
      ([c3goodA, c3goodB].map ScopeSpec.sname).reverse) ∧
    (warnEmptyNames
        (Run.run c3beh [c3goodA, c3goodB] [] "out" false initialRunState).1.events =
      (([c3goodA, c3goodB].reverse.filter
        fun s => !s.tearDownRaises && s.tearDownEmpty).map ScopeSpec.sname)) ∧
    (tearDownNames
        (Run.run c3beh [c3goodA, c3bad] [] "out" false initialRunState).1.events = []) :=
  ⟨((C3_teardown_reverse_order c3beh [c3goodA, c3goodB] [] "out" initialRunState rfl
      rfl).1 (by decide) (by decide) rfl).2.2.1,
   ((C3_teardown_reverse_order c3beh [c3goodA, c3goodB] [] "out" initialRunState rfl
      rfl).1 (by decide) (by decide) rfl).2.2.2.2,
   ((C3_teardown_reverse_order c3beh [c3goodA, c3bad] [] "out" initialRunState rfl
      rfl).2 [c3goodA] c3bad [] rfl (by decide) rfl).2.1⟩

/-- C4 (amended): `Run.run` creates the out_dir if missing and succeeds
even when it already exists (mkdir is called with `exist_ok=True`); what
must not preexist is the `browser.log` file inside it, asserted in
`Run.setup`. -/
theorem C4_outdir_mkdir (fs : List String) (p : String) (beh : RunBehavior)
    (scopes : List ScopeSpec) (st : RunState) :
    (∃ fs', Path.mkdir fs p true true = .ok fs' ∧ p ∈ fs') ∧
    (st.state = 0 → (Run.setup beh scopes true st).2 = some "browser.log exists") := by
  constructor
  · rw [mkdir_exist_ok]
    by_cases hp : p ∈ fs
    · exact ⟨fs, by simp [hp], hp⟩
    · exact ⟨p :: fs, by simp [hp], by simp⟩
  · intro h0
    unfold Run.setup
    rw [if_neg (by simp [h0])]
    simp

/-- C4 counterexample: a full `Run.run` on a filesystem already containing
the out_dir completes without error (the original claim says it must
fail). -/
theorem C4_counterexample :
    ("out/chrome/story/0" ∈ (["out/chrome/story/0"] : List String)) ∧
    (Run.run c3beh [c3goodA] ["out/chrome/story/0"] "out/chrome/story/0" false
      initialRunState).2 = none ∧
    (Run.run c3beh [c3goodA] ["out/chrome/story/0"] "out/chrome/story/0" false
      initialRunState).1.state = 3 := by
  refine ⟨by decide, ?_, ?_⟩
  · rw [runRun_success_eq c3beh [c3goodA] _ _ initialRunState rfl (by decide)
      (by decide) rfl]
  · rw [runRun_success_eq c3beh [c3goodA] _ _ initialRunState rfl (by decide)
      (by decide) rfl]
    rw [rmTmpDirPhase_state, tearDownScopesPhase_state, quitCapturePhase_state]

/-- C4 witness: the amended theorem evaluated on a concrete filesystem. -/
theorem C4_outdir_mkdir_witness :
    (∃ fs', Path.mkdir ["a/b"] "a/b" true true = .ok fs' ∧ "a/b" ∈ fs') ∧
    (Run.setup c3beh [c3goodA] true initialRunState).2 = some "browser.log exists" :=
  ⟨(C4_outdir_mkdir ["a/b"] "a/b" c3beh [c3goodA] initialRunState).1,
   (C4_outdir_mkdir ["a/b"] "a/b" c3beh [c3goodA] initialRunState).2 rfl⟩

/-- C10: when `tear_down(is_shutdown=True)` is called with the browser
still running and `browser.quit` raises, tear_down returns right after the
warning: no probe scope teardown happens, the `ProbeResultDict` and the
tmp-dir flag are untouched, yet the state has already advanced to DONE. -/
theorem C10_shutdown_quit_error (beh : RunBehavior) (scopes : List ScopeSpec)
    (st : RunState) (h2 : st.state = 2) (hbr : st.browserRunning = true)
    (hq : beh.quitRaises = true) :
    Run.tear_down beh scopes true st =
      ({ st with
          state := 3
          events := st.events ++ [RunEvent.browserQuit, RunEvent.warnQuitError] },
        none) ∧
    tearDownNames (Run.tear_down beh scopes true st).1.events =
      tearDownNames st.events ∧
    (Run.tear_down beh scopes true st).1.resultEntries = st.resultEntries ∧
    (Run.tear_down beh scopes true st).1.tmpDirRemoved = st.tmpDirRemoved ∧
    (Run.tear_down beh scopes true st).1.state = 3 := by
  have heq : Run.tear_down beh scopes true st =
      ({ st with
          state := 3
          events := st.events ++ [RunEvent.browserQuit, RunEvent.warnQuitError] },
        none) := by
    unfold Run.tear_down
    rw [if_neg (by simp [h2])]
    simp [hbr, hq]
  refine ⟨heq, ?_, ?_, ?_, ?_⟩ <;>
    (rw [heq]; try simp [tearDownNames_append, tearDownNames])

/-- C10 witness: the theorem evaluated on a concrete RUN-state Run. -/
theorem C10_shutdown_quit_error_witness :
    Run.tear_down ⟨false, false, true⟩ [c3goodA] true c10state =
      ({ c10state with
          state := 3
          events := c10state.events ++ [RunEvent.browserQuit, RunEvent.warnQuitError] },
        none) ∧
    (Run.tear_down ⟨false, false, true⟩ [c3goodA] true c10state).1.resultEntries =
      c10state.resultEntries ∧
    (Run.tear_down ⟨false, false, true⟩ [c3goodA] true c10state).1.tmpDirRemoved =
      c10state.tmpDirRemoved :=
  ⟨(C10_shutdown_quit_error ⟨false, false, true⟩ [c3goodA] c10state rfl rfl rfl).1,
   (C10_shutdown_quit_error ⟨false, false, true⟩ [c3goodA] c10state rfl rfl rfl).2.2.1,
   (C10_shutdown_quit_error ⟨false, false, true⟩ [c3goodA] c10state rfl rfl rfl).2.2.2.1⟩

theorem collectRunExceptions_errors (runs : List RunOutcome) :
    ∀ a : Annotator, (collectRunExceptions runs a).errors =
      a.errors ++ (runs.filter fun r => !runIsSuccess r).flatMap RunOutcome.errors := by
  induction runs with
  | nil => intro a; simp [collectRunExceptions]
  | cons r rest ih =>
    intro a
    simp only [collectRunExceptions, List.foldl_cons, List.filter_cons]
    cases hr : runIsSuccess r
    · simp only [Bool.false_eq_true, if_false, Bool.not_false, if_pos]
      rw [show (List.foldl (fun acc r => if runIsSuccess r then acc else acc.extend ⟨r.errors⟩)
          (Annotator.extend a ⟨r.errors⟩) rest) =
        collectRunExceptions rest (Annotator.extend a ⟨r.errors⟩) from rfl]
      rw [ih]
      simp [Annotator.extend]
    · simp only [if_pos, Bool.not_true, Bool.false_eq_true, if_false]
      rw [show (List.foldl (fun acc r => if runIsSuccess r then acc else acc.extend ⟨r.errors⟩)
          a rest) = collectRunExceptions rest a from rfl]
      rw [ih]

theorem failedErrors_nil_iff (runs : List RunOutcome) :
    ((runs.filter fun r => !runIsSuccess r).flatMap RunOutcome.errors = []) ↔
      ∀ r ∈ runs, runIsSuccess r = true := by
  induction runs with
  | nil => simp
  | cons r rest ih =>
    simp only [List.filter_cons]
    cases hr : runIsSuccess r
    · simp only [Bool.not_false, if_pos, List.flatMap_cons]
      constructor
      · intro h
        have hre : r.errors = [] := by
          rcases List.append_eq_nil.mp h with ⟨h1, _⟩
          exact h1
        have : runIsSuccess r = true := by
          simp [runIsSuccess, hre]
        rw [this] at hr
        cases hr
      · intro h
        have := h r (by simp)
        rw [this] at hr
        cases hr
    · simp only [Bool.not_true, Bool.false_eq_true, if_false]
      rw [ih]
      constructor
      · intro h x hx
        rcases List.mem_cons.mp hx with h1 | h2
        · subst h1; exact hr
        · exact h x h2
      · intro h x hx
        exact h x (by simp [hx])

/-- C5: after the runs have executed, the final report raises
`RunnerException` iff some run failed or a captured error remains in the
top-level annotator; and `Runner.is_success` holds iff at least one Run
exists and the annotator is empty. -/
theorem C5_runner_exception (runs : List RunOutcome) (a : Annotator) :
    (exceptIsOk (Runner.finalReport runs a) = false ↔
      (∃ r ∈ runs, runIsSuccess r = false) ∨ a.errors ≠ []) ∧
    (Runner.is_success runs a = true ↔ runs ≠ [] ∧ a.errors = []) := by
  constructor
  · unfold Runner.finalReport Annotator.assert_success
    rw [collectRunExceptions_errors]
    by_cases he : (a.errors ++ (runs.filter fun r => !runIsSuccess r).flatMap
        RunOutcome.errors) = []
    · rw [if_pos (by simp [he])]
      rcases List.append_eq_nil.mp he with ⟨h1, h2⟩
      rw [failedErrors_nil_iff] at h2
      simp only [exceptIsOk, Bool.true_eq_false, false_iff]
      push_neg
      exact ⟨fun r hrm => by simp [h2 r hrm], h1⟩
    · rw [if_neg (by simpa [List.isEmpty_iff] using he)]
      simp only [exceptIsOk, true_iff]
      by_cases ha : a.errors = []
      · left
        by_contra hall
        push_neg at hall
        apply he
        rw [ha, List.nil_append]
        rw [failedErrors_nil_iff]
        intro r hr
        have := hall r hr
        cases hx : runIsSuccess r
        · exact absurd hx this
        · rfl
      · right; exact ha
  · unfold Runner.is_success Annotator.is_success
    simp [List.isEmpty_iff, List.length_pos]

theorem attachLoop_raise (compatible : String → String → Bool) (probe : String)
    (bad : String) (post : List String) (hbad : compatible bad probe = false) :
    ∀ (pre : List String) (st : AttachState),
      (∀ b ∈ pre, compatible b probe = true) →
      attachLoop compatible probe false (pre ++ bad :: post) st =
        ({ st with attachments := st.attachments ++ pre.map fun b => (b, probe) },
         some ("Probe " ++ probe ++ " is not compatible")) := by
  intro pre
  induction pre with
  | nil => intro st h; simp [attachLoop, hbad]
  | cons b rest ih =>
    intro st h
    have hb : compatible b probe = true := h b (by simp)
    simp only [List.cons_append, attachLoop, hb, if_pos, List.map_cons, List.append_eq]
    rw [ih _ (fun x hx => h x (by simp [hx]))]
    simp

/-- C9: `attach_probe` with an incompatible browser and
`matching_browser_only=False` raises, but the probe is already in the
Runner's probe list and has been attached to every compatible browser
preceding the first incompatible one — no rollback. -/
theorem C9_attach_probe_not_atomic (compatible : String → String → Bool)
    (probe : String) (st : AttachState)
    (pre : List String) (bad : String) (post : List String)
    (hnew : probe ∉ st.probes)
    (hpre : ∀ b ∈ pre, compatible b probe = true)
    (hbad : compatible bad probe = false) :
    (Runner.attach_probe compatible (pre ++ bad :: post) st probe false).2.isSome = true ∧
    probe ∈ (Runner.attach_probe compatible (pre ++ bad :: post) st probe false).1.probes ∧
    (Runner.attach_probe compatible (pre ++ bad :: post) st probe false).1.attachments =
      st.attachments ++ pre.map (fun b => (b, probe)) := by
  unfold Runner.attach_probe
  rw [if_neg hnew]
  rw [attachLoop_raise compatible probe bad post hbad pre _ hpre]
  refine ⟨rfl, by simp, rfl⟩

/-- C9 witness: the theorem evaluated on three browsers of which the last
is incompatible. -/
theorem C9_attach_probe_not_atomic_witness :
    (Runner.attach_probe c9compat ["chrome", "firefox", "safari"]
      ⟨["results"], []⟩ "v8.log" false).2.isSome = true ∧
    "v8.log" ∈ (Runner.attach_probe c9compat ["chrome", "firefox", "safari"]
      ⟨["results"], []⟩ "v8.log" false).1.probes ∧
    (Runner.attach_probe c9compat ["chrome", "firefox", "safari"]
      ⟨["results"], []⟩ "v8.log" false).1.attachments =
      [] ++ ["chrome", "firefox"].map (fun b => (b, "v8.log")) :=
  C9_attach_probe_not_atomic c9compat "v8.log" ⟨["results"], []⟩
    ["chrome", "firefox"] "safari" [] (by decide) (by decide) (by decide)
